import Mathlib

/-!
Shallow embedding of the zspy typed codec registry
(`src/src/message_registry.rs`), together with the generated registration
step (`build.rs` / `registry.rs`) and a modelled protobuf wire decoder for
the `zspy.Vector3` schema (the `.proto` schema sources are not part of the
Rust sources; the spec describes `zspy.Vector3` as a message with three
floating-point fields `x`, `y`, `z`).

Bytes are modelled as lists of naturals below 256.  Fallible operations
return `Except String _`, carrying the error text like the boxed
`dyn Error` values of the source.
-/

/-- JSON values as produced by the text parser (`serde_json::Value`);
numeric literals are kept as their source text, since no claim inspects
their numeric value. -/
inductive Json where
  | null : Json
  | bool (b : Bool) : Json
  | num (lit : String) : Json
  | str (s : String) : Json
  | arr (elems : List Json) : Json
  | obj (fields : List (String × Json)) : Json

/-- Type-erased codec interface (`trait MessageFactory`): decode bytes to
text, encode text to bytes, and describe the schema.  `get_schema` is a
total `String`-valued method in the source, so it is a plain field here. -/
structure MessageFactory where
  decode : List Nat → Except String String
  encode : String → Except String (List Nat)
  get_schema : String

/-- The library operations that `ProtoMessageFactory<T>` composes for one
concrete message type `T`: prost wire decode (`T::decode`), prost wire
encode (`Message::encode` into a growable `Vec`, which cannot fail, hence
total), `serde_json::from_str::<Value>` (syntax parse),
`serde_json::from_value::<T>` (schema-shaped conversion) and
`serde_json::to_string_pretty` (canonical rendering). -/
structure ProtoCodec (T : Type) where
  wire_decode : List Nat → Except String T
  wire_encode : T → List Nat
  from_str : String → Except String Json
  from_value : Json → Except String T
  to_string_pretty : T → Except String String

/-- `ProtoMessageFactory::decode`: prost-decode the bytes into a typed
message, then render that message as pretty JSON text; either failure is
propagated unchanged. -/
def ProtoCodec.factoryDecode {T : Type} (c : ProtoCodec T) (bytes : List Nat) :
    Except String String :=
  match c.wire_decode bytes with
  | .error e => .error e
  | .ok msg => c.to_string_pretty msg

/-- `ProtoMessageFactory::encode`: parse the text as generic JSON, convert
the JSON value into the typed message, then wire-encode it; either parse
failure is propagated unchanged. -/
def ProtoCodec.factoryEncode {T : Type} (c : ProtoCodec T) (json : String) :
    Except String (List Nat) :=
  match c.from_str json with
  | .error e => .error e
  | .ok value =>
    match c.from_value value with
    | .error e => .error e
    | .ok msg => .ok (c.wire_encode msg)

/-- The type-erased factory built by `ProtoMessageFactory::<T>::new()` as it
is stored in the registry: the composed decode/encode above plus the static
schema placeholder string from `ProtoMessageFactory::get_schema`. -/
def ProtoCodec.toFactory {T : Type} (c : ProtoCodec T) : MessageFactory where
  decode := c.factoryDecode
  encode := c.factoryEncode
  get_schema := "Schema not available yet"

/-- Errors surfaced by the registry: either its own unknown-type error
(the `format!("Unknown message type: ...")` string, a distinct dynamic
error type in the source) or an error propagated from the looked-up
factory (a serde_json or prost error). -/
inductive ZError where
  | unknownType (name : String)
  | codecError (msg : String)
deriving DecidableEq

/-- Propagation of a factory-level result through the registry: factory
errors keep their message but are marked as codec errors, distinguishing
them from the registry's own unknown-type error. -/
def liftCodec {α : Type} : Except String α → Except ZError α
  | .error e => .error (.codecError e)
  | .ok a => .ok a

/-- The registry state: `HashMap<String, Box<dyn MessageFactory>>`,
modelled as an association list in which each key occurs at most once
(the insert operation below replaces in place, as `HashMap::insert`
replaces the bound value of an existing key). -/
structure MessageRegistry where
  factories : List (String × MessageFactory)

/-- `HashMap::insert` on the association-list model: replace the value if
the key is present, otherwise add the new binding. -/
def insertAssoc : List (String × MessageFactory) → String → MessageFactory →
    List (String × MessageFactory)
  | [], n, f => [(n, f)]
  | (k, g) :: rest, n, f =>
    if k = n then (n, f) :: rest else (k, g) :: insertAssoc rest n f

/-- `HashMap::get` on the association-list model. -/
def getAssoc : List (String × MessageFactory) → String → Option MessageFactory
  | [], _ => none
  | (k, g) :: rest, n => if k = n then some g else getAssoc rest n

/-- `MessageRegistry::new`: the empty registry. -/
def MessageRegistry.new : MessageRegistry := ⟨[]⟩

/-- `MessageRegistry::register::<T>(name)`: insert the (type-erased)
factory under `name`, replacing any previous binding. -/
def MessageRegistry.register (reg : MessageRegistry) (name : String)
    (f : MessageFactory) : MessageRegistry :=
  ⟨insertAssoc reg.factories name f⟩

/-- Lookup of the factory bound to a name (`self.factories.get(msg_type)`). -/
def MessageRegistry.get (reg : MessageRegistry) (name : String) :
    Option MessageFactory :=
  getAssoc reg.factories name

/-- `MessageRegistry::decode`: look up the factory by name, failing with
the unknown-type error when absent, otherwise delegate to the factory's
decode and propagate its result. -/
def MessageRegistry.decode (reg : MessageRegistry) (msg_type : String)
    (bytes : List Nat) : Except ZError String :=
  match reg.get msg_type with
  | none => .error (.unknownType msg_type)
  | some factory => liftCodec (factory.decode bytes)

/-- `MessageRegistry::encode`: symmetric to decode. -/
def MessageRegistry.encode (reg : MessageRegistry) (msg_type : String)
    (json : String) : Except ZError (List Nat) :=
  match reg.get msg_type with
  | none => .error (.unknownType msg_type)
  | some factory => liftCodec (factory.encode json)

/-- `MessageRegistry::list_types`: the keys of the map. -/
def MessageRegistry.list_types (reg : MessageRegistry) : List String :=
  reg.factories.map Prod.fst

/-- `MessageRegistry::get_schema`: `None` when the name is unbound,
otherwise the bound factory's schema text. -/
def MessageRegistry.get_schema (reg : MessageRegistry) (msg_type : String) :
    Option String :=
  (reg.get msg_type).map MessageFactory.get_schema

/-- A finite sequence of `register` calls applied in order to a registry,
as performed by the generated registration step. -/
def applyRegisters (calls : List (String × MessageFactory))
    (reg : MessageRegistry) : MessageRegistry :=
  calls.foldl (fun r c => r.register c.1 c.2) reg

/-- The operations of the registry interface, for stating frame
properties about a call trace. -/
inductive RegOp where
  | register (name : String) (f : MessageFactory)
  | decode (name : String) (bytes : List Nat)
  | encode (name : String) (json : String)
  | list_types
  | get_schema (name : String)

/-- The output of one registry operation. -/
inductive RegOutput where
  | unit : RegOutput
  | decoded (r : Except ZError String) : RegOutput
  | encoded (r : Except ZError (List Nat)) : RegOutput
  | types (l : List String) : RegOutput
  | schema (s : Option String) : RegOutput

/-- One step of the registry interface: `register` takes `&mut self` and
mutates the map; the four remaining operations take `&self` (a shared
borrow of a map without interior mutability) and leave the state as is. -/
def regStep (reg : MessageRegistry) : RegOp → MessageRegistry × RegOutput
  | .register n f => (reg.register n f, .unit)
  | .decode n bs => (reg, .decoded (reg.decode n bs))
  | .encode n j => (reg, .encoded (reg.encode n j))
  | .list_types => (reg, .types reg.list_types)
  | .get_schema n => (reg, .schema (reg.get_schema n))

/-- Modelled from the spec: the `zspy.Vector3` message schema.  Its
`.proto` source is not among the Rust sources; the spec describes it as a
message with three floating-point fields `x`, `y`, `z`.  Each field is
represented by its 32-bit pattern (a natural below `2 ^ 32`); no
floating-point arithmetic is performed on it. -/
structure Zspy.Vector3 where
  x : Nat
  y : Nat
  z : Nat
deriving DecidableEq

/-- The all-default `Zspy.Vector3` (`T::default()`): every float field is
positive zero, bit pattern `0`. -/
def Zspy.Vector3.default : Zspy.Vector3 := ⟨0, 0, 0⟩

/-- Protobuf base-128 varint reading: little-endian groups of 7 bits, a
set high bit marking continuation; fails on a truncated buffer. -/
def readVarint : List Nat → Except String (Nat × List Nat)
  | [] => .error "invalid varint: truncated"
  | b :: rest =>
    if b < 128 then .ok (b, rest)
    else
      match readVarint rest with
      | .error e => .error e
      | .ok (n, r) => .ok (b % 128 + 128 * n, r)

/-- Protobuf fixed 32-bit field reading: four little-endian bytes; fails
on a truncated buffer. -/
def readFixed32 : List Nat → Except String (Nat × List Nat)
  | b0 :: b1 :: b2 :: b3 :: rest =>
    .ok (b0 + 256 * (b1 + 256 * (b2 + 256 * b3)), rest)
  | _ => .error "invalid fixed32: truncated"

/-- Skipping an unknown field's payload according to its wire type
(0 varint, 1 fixed64, 2 length-delimited, 5 fixed32); group wire types
and anything else are rejected as prost rejects them. -/
def skipFieldPayload (wireType : Nat) (bytes : List Nat) :
    Except String (List Nat) :=
  if wireType = 0 then
    match readVarint bytes with
    | .error e => .error e
    | .ok (_, r) => .ok r
  else if wireType = 1 then
    match bytes with
    | _ :: _ :: _ :: _ :: _ :: _ :: _ :: _ :: rest => .ok rest
    | _ => .error "invalid fixed64: truncated"
  else if wireType = 2 then
    match readVarint bytes with
    | .error e => .error e
    | .ok (len, r) =>
      if len ≤ r.length then .ok (r.drop len) else .error "invalid length: truncated"
  else if wireType = 5 then
    match bytes with
    | _ :: _ :: _ :: _ :: rest => .ok rest
    | _ => .error "invalid fixed32: truncated"
  else .error "invalid wire type"

/-- Merging one `Zspy.Vector3` field: fields 1, 2, 3 are the floats `x`, `y`,
`z` (wire type 5, fixed 32-bit pattern); unknown field numbers are
skipped; a wrong wire type on a known field is an error. -/
def v3MergeField (v : Zspy.Vector3) (fieldNo wireType : Nat) (bytes : List Nat) :
    Except String (Zspy.Vector3 × List Nat) :=
  if fieldNo = 1 then
    if wireType = 5 then
      match readFixed32 bytes with
      | .error e => .error e
      | .ok (n, r) => .ok ({ v with x := n }, r)
    else .error "invalid wire type for field 1"
  else if fieldNo = 2 then
    if wireType = 5 then
      match readFixed32 bytes with
      | .error e => .error e
      | .ok (n, r) => .ok ({ v with y := n }, r)
    else .error "invalid wire type for field 2"
  else if fieldNo = 3 then
    if wireType = 5 then
      match readFixed32 bytes with
      | .error e => .error e
      | .ok (n, r) => .ok ({ v with z := n }, r)
    else .error "invalid wire type for field 3"
  else
    match skipFieldPayload wireType bytes with
    | .error e => .error e
    | .ok r => .ok (v, r)

/-- The prost merge loop for `Zspy.Vector3`: starting from the default value,
read a key varint and merge the field while bytes remain; an exhausted
buffer yields the value accumulated so far.  The fuel argument only
bounds the recursion; every iteration consumes at least one byte, so
`bytes.length + 1` units never run out. -/
def v3MergeLoop : Nat → Zspy.Vector3 → List Nat → Except String Zspy.Vector3
  | _, v, [] => .ok v
  | 0, _, _ => .error "invalid input: fuel exhausted"
  | fuel + 1, v, bytes =>
    match readVarint bytes with
    | .error e => .error e
    | .ok (key, rest) =>
      if key / 8 = 0 then .error "invalid field number 0"
      else
        match v3MergeField v (key / 8) (key % 8) rest with
        | .error e => .error e
        | .ok (v2, r) => v3MergeLoop fuel v2 r

/-- Modelled from the spec: `prost`'s generated `Zspy.Vector3::decode`, the
wire-format deserializer for the schema missing from the Rust sources —
a merge loop over key/value records starting from the default message. -/
def vector3WireDecode (bytes : List Nat) : Except String Zspy.Vector3 :=
  v3MergeLoop (bytes.length + 1) Zspy.Vector3.default bytes

/-- Decimal digit accumulation over a character list. -/
def parseNatAux : List Char → Nat → Option Nat
  | [], acc => some acc
  | c :: cs, acc =>
    if c.isDigit then parseNatAux cs (acc * 10 + (c.toNat - 48)) else none

/-- Parsing of a non-empty all-digit string as a natural number. -/
def parseNatText (s : String) : Option Nat :=
  match s.data with
  | [] => none
  | cs => parseNatAux cs 0

/-- A concrete codec over natural-number messages, used to instantiate
the generic theorems at evaluable inputs: the wire format is a singleton
byte list, the text format the decimal literal (with `null` as the one
recognised non-numeric JSON form, so that a syntactically valid text can
still fail the schema-shaped conversion). -/
def natCodec : ProtoCodec Nat where
  wire_decode := fun bs =>
    match bs with
    | [n] => .ok n
    | _ => .error "invalid wire format"
  wire_encode := fun n => [n]
  from_str := fun s =>
    if s = "null" then .ok .null
    else
      match parseNatText s with
      | some _ => .ok (.num s)
      | none => .error "expected value"
  from_value := fun j =>
    match j with
    | .num lit =>
      match parseNatText lit with
      | some n => .ok n
      | none => .error "invalid number"
    | _ => .error "invalid type"
  to_string_pretty := fun n => .ok (toString n)

/-- A concrete codec for the modelled `zspy.Vector3` schema: the wire
decoder is the modelled prost decoder; the renderer prints the three
stored bit patterns. -/
def v3Codec : ProtoCodec Zspy.Vector3 where
  wire_decode := vector3WireDecode
  wire_encode := fun _ => []
  from_str := fun _ => .error "unsupported"
  from_value := fun _ => .error "unsupported"
  to_string_pretty := fun v =>
    .ok ("x " ++ toString v.x ++ " y " ++ toString v.y ++ " z " ++ toString v.z)

/-- A concrete registry holding the `natCodec` factory under the
`zspy.Vector3` name. -/
def reg1 : MessageRegistry :=
  MessageRegistry.new.register "zspy.Vector3" natCodec.toFactory

/-- A second registry with the same binding for `zspy.Vector3` but a
different overall population. -/
def reg2 : MessageRegistry :=
  (MessageRegistry.new.register "zspy.ImuMessage" v3Codec.toFactory).register
    "zspy.Vector3" natCodec.toFactory

/-- A concrete registry holding the `v3Codec` factory under the
`zspy.Vector3` name. -/
def regV3 : MessageRegistry :=
  MessageRegistry.new.register "zspy.Vector3" v3Codec.toFactory

/-- A concrete registration-call list with the two names the generated
registration step registers. -/
def regCalls : List (String × MessageFactory) :=
  [("zspy.Vector3", natCodec.toFactory), ("zspy.ImuMessage", v3Codec.toFactory)]

/-! Helper lemmas about the association-list model of `HashMap`. -/

/-- Lookup after insert: the inserted key maps to the new factory, every
other key is unaffected. -/
theorem getAssoc_insertAssoc (l : List (String × MessageFactory)) (a b : String)
    (f : MessageFactory) :
    getAssoc (insertAssoc l a f) b = if a = b then some f else getAssoc l b := by
  induction l with
  | nil => simp [insertAssoc, getAssoc]
  | cons hd tl ih =>
    obtain ⟨k, g⟩ := hd
    by_cases hka : k = a
    · subst hka
      by_cases hab : k = b <;> simp [insertAssoc, getAssoc, hab]
    · by_cases hkb : k = b
      · subst hkb
        have hab : a ≠ k := fun h => hka h.symm
        simp [insertAssoc, getAssoc, hka, hab]
      · simp [insertAssoc, getAssoc, hka, hkb, ih]

/-- Inserting twice under the same key leaves only the second binding:
the state is identical to a single insert of the second factory. -/
theorem insertAssoc_insertAssoc_same (l : List (String × MessageFactory))
    (a : String) (f1 f2 : MessageFactory) :
    insertAssoc (insertAssoc l a f1) a f2 = insertAssoc l a f2 := by
  induction l with
  | nil => simp [insertAssoc]
  | cons hd tl ih =>
    obtain ⟨k, g⟩ := hd
    by_cases hka : k = a
    · subst hka
      simp [insertAssoc]
    · simp [insertAssoc, hka, ih]

/-- Key membership after insert. -/
theorem mem_keys_insertAssoc (l : List (String × MessageFactory)) (a b : String)
    (f : MessageFactory) :
    b ∈ (insertAssoc l a f).map Prod.fst ↔ b = a ∨ b ∈ l.map Prod.fst := by
  induction l with
  | nil => simp [insertAssoc]
  | cons hd tl ih =>
    obtain ⟨k, g⟩ := hd
    by_cases hka : k = a
    · subst hka
      simp [insertAssoc]
    · simp [insertAssoc, hka, ih]
      tauto

/-- Insert preserves key uniqueness. -/
theorem nodup_keys_insertAssoc (l : List (String × MessageFactory)) (a : String)
    (f : MessageFactory) (h : (l.map Prod.fst).Nodup) :
    ((insertAssoc l a f).map Prod.fst).Nodup := by
  induction l with
  | nil => simp [insertAssoc]
  | cons hd tl ih =>
    obtain ⟨k, g⟩ := hd
    simp only [List.map_cons, List.nodup_cons] at h
    by_cases hka : k = a
    · subst hka
      simpa [insertAssoc] using h
    · simp only [insertAssoc, if_neg hka, List.map_cons, List.nodup_cons]
      refine ⟨fun hmem => ?_, ih h.2⟩
      rcases (mem_keys_insertAssoc tl a k f).mp hmem with h1 | h1
      · exact hka h1
      · exact h.1 h1

/-- A sequence of register calls never touching name `n` leaves the
binding of `n` unchanged. -/
theorem get_applyRegisters_of_notMem (calls : List (String × MessageFactory))
    (reg : MessageRegistry) (n : String) (h : n ∉ calls.map Prod.fst) :
    (applyRegisters calls reg).get n = reg.get n := by
  induction calls generalizing reg with
  | nil => rfl
  | cons hd tl ih =>
    obtain ⟨k, f⟩ := hd
    simp only [List.map_cons, List.mem_cons, not_or] at h
    have step : (reg.register k f).get n = reg.get n := by
      have hk : k ≠ n := fun hk => h.1 hk.symm
      simp [MessageRegistry.register, MessageRegistry.get,
        getAssoc_insertAssoc, hk]
    calc (applyRegisters ((k, f) :: tl) reg).get n
        = (applyRegisters tl (reg.register k f)).get n := rfl
      _ = (reg.register k f).get n := ih (reg.register k f) h.2
      _ = reg.get n := step

/-- The set of listed types after a sequence of register calls is the
names of the calls together with the names already present. -/
theorem mem_listTypes_applyRegisters (calls : List (String × MessageFactory))
    (reg : MessageRegistry) (m : String) :
    m ∈ (applyRegisters calls reg).list_types ↔
      m ∈ calls.map Prod.fst ∨ m ∈ reg.list_types := by
  induction calls generalizing reg with
  | nil => simp [applyRegisters]
  | cons hd tl ih =>
    obtain ⟨k, f⟩ := hd
    have h1 : applyRegisters ((k, f) :: tl) reg = applyRegisters tl (reg.register k f) := rfl
    rw [h1, ih]
    have h2 : m ∈ (reg.register k f).list_types ↔ m = k ∨ m ∈ reg.list_types :=
      mem_keys_insertAssoc reg.factories k m f
    rw [h2, List.map_cons, List.mem_cons]
    tauto

/-- A sequence of register calls preserves key uniqueness. -/
theorem nodup_listTypes_applyRegisters (calls : List (String × MessageFactory))
    (reg : MessageRegistry) (h : reg.list_types.Nodup) :
    (applyRegisters calls reg).list_types.Nodup := by
  induction calls generalizing reg with
  | nil => exact h
  | cons hd tl ih =>
    obtain ⟨k, f⟩ := hd
    have : applyRegisters ((k, f) :: tl) reg = applyRegisters tl (reg.register k f) := rfl
    rw [this]
    exact ih (reg.register k f) (nodup_keys_insertAssoc reg.factories k f h)

/-! Claim theorems. -/

/-- C1: for a registered name bound to a proto factory, whenever the text
parses (syntax and schema shape), the wire round-trip holds for the parsed
message, and the text is already canonical (it is exactly the pretty
rendering of its parsed value), encoding succeeds and decoding the
produced bytes succeeds and returns the original text:
`decode(n, encode(n, t)) = t`. -/
theorem registry_roundtrip {T : Type} (c : ProtoCodec T)
    (reg : MessageRegistry) (n t : String) (v : Json) (msg : T)
    (hreg : reg.get n = some c.toFactory)
    (hstr : c.from_str t = .ok v)
    (hval : c.from_value v = .ok msg)
    (hwire : c.wire_decode (c.wire_encode msg) = .ok msg)
    (hcanon : c.to_string_pretty msg = .ok t) :
    reg.encode n t = .ok (c.wire_encode msg)
    ∧ reg.decode n (c.wire_encode msg) = .ok t := by
  constructor
  · simp [MessageRegistry.encode, hreg, ProtoCodec.toFactory,
      ProtoCodec.factoryEncode, hstr, hval, liftCodec]
  · simp [MessageRegistry.decode, hreg, ProtoCodec.toFactory,
      ProtoCodec.factoryDecode, hwire, hcanon, liftCodec]

/-- Witness for C1 at the canonical text `"7"` under `natCodec`. -/
theorem registry_roundtrip_witness :
    reg1.encode "zspy.Vector3" "7" = .ok [7]
    ∧ reg1.decode "zspy.Vector3" [7] = .ok "7" :=
  registry_roundtrip natCodec reg1 "zspy.Vector3" "7" (Json.num "7") 7
    rfl rfl rfl rfl rfl

/-- C2: a name never passed to register is rejected by both decode and
encode with the unknown-type error, whatever the bytes or text are. -/
theorem unknown_type_always_rejected
    (calls : List (String × MessageFactory)) (n : String)
    (bytes : List Nat) (text : String)
    (h : n ∉ calls.map Prod.fst) :
    (applyRegisters calls MessageRegistry.new).decode n bytes
        = .error (.unknownType n)
    ∧ (applyRegisters calls MessageRegistry.new).encode n text
        = .error (.unknownType n) := by
  have hget : (applyRegisters calls MessageRegistry.new).get n = none :=
    get_applyRegisters_of_notMem calls MessageRegistry.new n h
  constructor
  · simp [MessageRegistry.decode, hget]
  · simp [MessageRegistry.encode, hget]

/-- Witness for C2: the spec's concrete scenario, `"unknown.Type"` against
a registry populated with the two generated names. -/
theorem unknown_type_always_rejected_witness :
    (applyRegisters regCalls MessageRegistry.new).decode "unknown.Type" [1, 2, 3]
        = .error (.unknownType "unknown.Type")
    ∧ (applyRegisters regCalls MessageRegistry.new).encode "unknown.Type" "x"
        = .error (.unknownType "unknown.Type") :=
  unknown_type_always_rejected regCalls "unknown.Type" [1, 2, 3] "x" (by decide)

/-- C3: registering the same name twice leaves a registry state identical
to registering only the second factory (no trace of the first), and
subsequent decode/encode on that name dispatch to the second factory. -/
theorem register_last_write_wins (reg : MessageRegistry) (n : String)
    (f1 f2 : MessageFactory) (bytes : List Nat) (text : String) :
    (reg.register n f1).register n f2 = reg.register n f2
    ∧ ((reg.register n f1).register n f2).get n = some f2
    ∧ ((reg.register n f1).register n f2).decode n bytes
        = liftCodec (f2.decode bytes)
    ∧ ((reg.register n f1).register n f2).encode n text
        = liftCodec (f2.encode text) := by
  have hstate : (reg.register n f1).register n f2 = reg.register n f2 := by
    simp [MessageRegistry.register, insertAssoc_insertAssoc_same]
  have hget : ((reg.register n f1).register n f2).get n = some f2 := by
    rw [hstate]
    simp [MessageRegistry.register, MessageRegistry.get, getAssoc_insertAssoc]
  refine ⟨hstate, hget, ?_, ?_⟩
  · simp [MessageRegistry.decode, hget]
  · simp [MessageRegistry.encode, hget]

/-- C4: after any sequence of register calls on a fresh registry, the
listed types have no duplicates and form exactly the set of registered
names (order unspecified). -/
theorem list_types_matches_registered_names
    (calls : List (String × MessageFactory)) :
    (applyRegisters calls MessageRegistry.new).list_types.Nodup
    ∧ ∀ m, m ∈ (applyRegisters calls MessageRegistry.new).list_types
        ↔ m ∈ calls.map Prod.fst := by
  constructor
  · exact nodup_listTypes_applyRegisters calls MessageRegistry.new
      (by simp [MessageRegistry.new, MessageRegistry.list_types])
  · intro m
    rw [mem_listTypes_applyRegisters]
    simp [MessageRegistry.new, MessageRegistry.list_types]

/-- C5: get_schema is total and returns `none` exactly for unknown names;
for a bound name it returns the factory's schema text, which for every
proto factory is the placeholder string. -/
theorem get_schema_exactly_for_known (reg : MessageRegistry) (n : String) :
    (reg.get_schema n = none ↔ reg.get n = none)
    ∧ (∀ f, reg.get n = some f → reg.get_schema n = some f.get_schema)
    ∧ (∀ (T : Type) (c : ProtoCodec T),
        c.toFactory.get_schema = "Schema not available yet") := by
  refine ⟨?_, ?_, ?_⟩
  · simp [MessageRegistry.get_schema]
  · intro f hf
    simp [MessageRegistry.get_schema, hf]
  · intro T c
    rfl

/-- Witness for C5: on a concrete registry the known name yields the
placeholder text and the unknown name yields `none`. -/
theorem get_schema_exactly_for_known_witness :
    reg1.get_schema "zspy.Vector3" = some "Schema not available yet"
    ∧ reg1.get_schema "unknown.Type" = none :=
  ⟨(get_schema_exactly_for_known reg1 "zspy.Vector3").2.1 natCodec.toFactory rfl,
   (get_schema_exactly_for_known reg1 "unknown.Type").1.mpr rfl⟩

/-- C6: on a registered name bound to a proto factory, encode fails with
the propagated codec error — a constructor distinct from the unknown-type
error — both when the text fails the JSON syntax parse and when it parses
but fails the schema-shaped conversion. -/
theorem encode_fails_with_encode_error {T : Type} (c : ProtoCodec T)
    (reg : MessageRegistry) (n : String)
    (hreg : reg.get n = some c.toFactory) :
    (∀ t e, c.from_str t = .error e →
      reg.encode n t = .error (.codecError e))
    ∧ (∀ t v e, c.from_str t = .ok v → c.from_value v = .error e →
      reg.encode n t = .error (.codecError e)) := by
  constructor
  · intro t e hsyn
    simp [MessageRegistry.encode, hreg, ProtoCodec.toFactory,
      ProtoCodec.factoryEncode, hsyn, liftCodec]
  · intro t v e hsyn hshape
    simp [MessageRegistry.encode, hreg, ProtoCodec.toFactory,
      ProtoCodec.factoryEncode, hsyn, hshape, liftCodec]

/-- Witness for C6: the spec's concrete scenario `"not json"` (syntax
failure) and the shape failure `"null"` both yield codec errors, not
unknown-type errors. -/
theorem encode_fails_with_encode_error_witness :
    reg1.encode "zspy.Vector3" "not json" = .error (.codecError "expected value")
    ∧ reg1.encode "zspy.Vector3" "null" = .error (.codecError "invalid type") :=
  ⟨(encode_fails_with_encode_error natCodec reg1 "zspy.Vector3" rfl).1
      "not json" "expected value" rfl,
   (encode_fails_with_encode_error natCodec reg1 "zspy.Vector3" rfl).2
      "null" Json.null "invalid type" rfl rfl⟩

/-- C7: decoding the empty byte buffer under `zspy.Vector3` always takes
the first of the claim's two allowed behaviors: the modelled prost
decoder returns the all-default message on an empty buffer, so the call
succeeds with the rendering of the default value (and, all operations
being pure functions, the behavior is the same on every call). -/
theorem decode_empty_buffer_default (reg : MessageRegistry)
    (c : ProtoCodec Zspy.Vector3) (s : String)
    (hwd : c.wire_decode = vector3WireDecode)
    (hreg : reg.get "zspy.Vector3" = some c.toFactory)
    (hrender : c.to_string_pretty Zspy.Vector3.default = .ok s) :
    reg.decode "zspy.Vector3" [] = .ok s := by
  have hdec : c.wire_decode [] = .ok Zspy.Vector3.default := by
    rw [hwd]
    rfl
  simp [MessageRegistry.decode, hreg, ProtoCodec.toFactory,
    ProtoCodec.factoryDecode, hdec, hrender, liftCodec]

/-- Witness for C7 on a concrete registry and renderer. -/
theorem decode_empty_buffer_default_witness :
    regV3.decode "zspy.Vector3" [] = .ok "x 0 y 0 z 0" :=
  decode_empty_buffer_default regV3 v3Codec "x 0 y 0 z 0" rfl rfl rfl

/-- C8: encode is deterministic — it is a pure function of the factory
bound to the name and the text, so two registries agreeing on the binding
give the same result, and two successful runs give byte-for-byte equal
buffers. -/
theorem encode_deterministic (regA regB : MessageRegistry) (n t : String)
    (h : regA.get n = regB.get n) :
    regA.encode n t = regB.encode n t
    ∧ ∀ b1 b2, regA.encode n t = .ok b1 → regB.encode n t = .ok b2 →
        b1 = b2 := by
  have he : regA.encode n t = regB.encode n t := by
    simp only [MessageRegistry.encode, h]
  refine ⟨he, fun b1 b2 h1 h2 => ?_⟩
  rw [he, h2] at h1
  injection h1 with hb
  exact hb.symm

/-- Witness for C8 on two concrete registries with the same binding. -/
theorem encode_deterministic_witness :
    reg1.encode "zspy.Vector3" "7" = reg2.encode "zspy.Vector3" "7"
    ∧ ∀ b1 b2, reg1.encode "zspy.Vector3" "7" = .ok b1 →
        reg2.encode "zspy.Vector3" "7" = .ok b2 → b1 = b2 :=
  encode_deterministic reg1 reg2 "zspy.Vector3" "7" rfl

/-- C9: register places no constraint on the name, not even
non-emptiness: it is a total operation, and after registering the empty
string that name is known — lookup finds the factory, decode and encode
dispatch to it, the empty string is listed, and get_schema is present. -/
theorem register_accepts_empty_name (reg : MessageRegistry)
    (f : MessageFactory) (bytes : List Nat) (text : String) :
    (reg.register "" f).get "" = some f
    ∧ (reg.register "" f).decode "" bytes = liftCodec (f.decode bytes)
    ∧ (reg.register "" f).encode "" text = liftCodec (f.encode text)
    ∧ "" ∈ (reg.register "" f).list_types
    ∧ (reg.register "" f).get_schema "" = some f.get_schema := by
  have hget : (reg.register "" f).get "" = some f := by
    simp [MessageRegistry.register, MessageRegistry.get, getAssoc_insertAssoc]
  refine ⟨hget, ?_, ?_, ?_, ?_⟩
  · simp [MessageRegistry.decode, hget]
  · simp [MessageRegistry.encode, hget]
  · exact (mem_keys_insertAssoc reg.factories "" "" f).mpr (Or.inl rfl)
  · simp [MessageRegistry.get_schema, hget]

/-- C10: the four read operations take a shared borrow of the registry
and leave its state — in particular its listed types — unchanged in the
step semantics of the interface. -/
theorem read_ops_leave_registry_unchanged (reg : MessageRegistry)
    (n m o : String) (bytes : List Nat) (text : String) :
    (regStep reg (.decode n bytes)).1 = reg
    ∧ (regStep reg (.encode m text)).1 = reg
    ∧ (regStep reg .list_types).1 = reg
    ∧ (regStep reg (.get_schema o)).1 = reg
    ∧ (regStep reg (.decode n bytes)).1.list_types = reg.list_types :=
  ⟨rfl, rfl, rfl, rfl, rfl⟩
